import Mathlib

/-!
# Session middleware of `session.go`

A shallow embedding of `WithSession`, `SaveSession` and `UserInfoHandler`
(`src/session.go`) together with the parts of the Go standard library and of
the third-party packages they call.

Conventions of the embedding

* A Go `interface{}` value is an `Any`: the nil interface, a `string`, a
  `bool`, or a value of some other dynamic type (`other n`).
* `s.Values` (`map[interface{}]interface{}`) is an association list with at
  most one entry per key; indexing a missing key yields the nil interface, as
  indexing a Go map does.
* A `context.Context` is the chain of `valueCtx` nodes that
  `context.WithValue` builds, ending in the nil interface or in a root context
  that holds no value.
* Everything the handlers can change lives in a `World`: the session object
  that `store.Get` hands out for the request, the outcomes of the external
  store calls, the snapshots the store was asked to persist, the response
  written so far, and the heap of `*http.Request` objects.
* A run ends normally (`Result.ok`) or in a Go run-time panic
  (`Result.panic`); both carry the world reached.
* `log.Printf` calls and response headers other than the status line are not
  modelled.
-/

namespace Session

/-! ## Values, maps and contexts -/

/-- A Go `interface{}` value, by dynamic type. -/
inductive Any where
  | nil
  | str (s : String)
  | bool (b : Bool)
  | other (tag : Nat)
  deriving DecidableEq, Repr

/-- The session's `Values` map. -/
abbrev Values := List (Any × Any)

/-- Go map indexing `m[k]`: the stored value, or the nil interface when the key is missing. -/
def Values.get : Values → Any → Any
  | [], _ => Any.nil
  | (k', v) :: rest, k => if k' = k then v else Values.get rest k

/-- Go map assignment `m[k] = v`. -/
def Values.set (m : Values) (k v : Any) : Values :=
  (k, v) :: m.filter (fun p => !decide (p.1 = k))

/-- The comma-ok type assertion `_, ok := x.(string)`. -/
def Any.isString : Any → Bool
  | Any.str _ => true
  | _ => false

/-- The comma-ok type assertion `_, ok := x.(bool)`. -/
def Any.isBool : Any → Bool
  | Any.bool _ => true
  | _ => false

/-- A `context.Context` value: the nil interface, a root context without values
(`context.Background()` and the like), or a `valueCtx` node. -/
inductive Ctx where
  | nil
  | background
  | value (parent : Ctx) (key val : Any)
  deriving DecidableEq, Repr

/-- The library function `context.WithValue(parent, key, val)`: it panics on a nil
parent, then on a nil key, and otherwise returns a `valueCtx` node over the
parent. -/
def WithValue (parent : Ctx) (key val : Any) : Except String Ctx :=
  if parent = Ctx.nil then Except.error "cannot create context from nil parent"
  else if key = Any.nil then Except.error "nil key"
  else Except.ok (Ctx.value parent key val)

/-- The method `ctx.Value(key)`: the nearest node with that key wins; a root context
answers nil; on a chain that ends in the nil interface the lookup of a key that
no node holds calls a method on nil and panics. -/
def Ctx.Value : Ctx → Any → Except String Any
  | Ctx.nil, _ => Except.error "invalid memory address or nil pointer dereference"
  | Ctx.background, _ => Except.ok Any.nil
  | Ctx.value parent k v, key => if k = key then Except.ok v else Ctx.Value parent key

/-! ## Requests, responses, the store and the world -/

/-- The part of an `http.Request` the handlers use: its context field. -/
structure Request where
  ctx : Ctx
  deriving DecidableEq, Repr

/-- The method `r.Context()`. -/
def Request.Context (r : Request) : Ctx :=
  if r.ctx = Ctx.nil then Ctx.background else r.ctx

/-- The state of an `http.ResponseWriter`: the status line once it is fixed, and the
body written so far. -/
structure Response where
  status : Option Nat
  body : String
  deriving DecidableEq, Repr

/-- The method `w.WriteHeader(code)`: the first status wins. -/
def Response.WriteHeader (w : Response) (code : Nat) : Response :=
  match w.status with
  | none => { w with status := some code }
  | some _ => w

/-- The method `w.Write(data)`: an unset status becomes 200, the data is appended. -/
def Response.Write (w : Response) (data : String) : Response :=
  { status := some (w.status.getD 200), body := w.body ++ data }

/-- The constant `http.StatusInternalServerError`. -/
def StatusInternalServerError : Nat := 500

/-- The library function `http.Error(w, msg, code)`: the status, then the message and
a newline. -/
def Response.Error (w : Response) (msg : String) (code : Nat) : Response :=
  (w.WriteHeader code).Write (msg ++ "\n")

/-- A `*sessions.Session` object. -/
structure Sess where
  Values : Values
  deriving DecidableEq, Repr

/-- Everything a handler run can read or change. `session` and `getErr` are the
two results of `store.Get(r, sessionName)` for this request (the session
pointer, `none` when nil, and the error, `none` when nil); the store hands out
the same session object on every call made for one request. `saveErr` is the
result of `s.Save(r, w)`; `saved` lists the value maps the store persisted.
`reqs` is the heap of request objects, a `*http.Request` being an index. -/
structure World where
  session : Option Sess
  getErr : Option String
  saveErr : Option String
  saved : List Values
  resp : Response
  reqs : List Request
  deriving DecidableEq, Repr

/-- The outcome of running Go code: normal completion with a value, or a panic. -/
inductive Result (α : Type) where
  | ok (w : World) (a : α)
  | panic (w : World) (msg : String)
  deriving Repr

/-- An `http.Handler`: `ServeHTTP(w, r)`. -/
abbrev Handler := World → Nat → Result Unit

/-- The method `s.Save(r, w)` on the session `s`: the store persists the session's
values unless it fails. -/
def World.Save (w : World) (s : Sess) : World × Option String :=
  match w.saveErr with
  | none => ({ w with saved := w.saved ++ [s.Values] }, none)
  | some e => (w, some e)

/-- The method `r.WithContext(ctx)`: a shallow copy of the request carrying `ctx`,
allocated on the heap; it panics on a nil context. -/
def World.WithContext (w : World) (r : Request) (ctx : Ctx) : Result Nat :=
  if ctx = Ctx.nil then Result.panic w "nil context"
  else Result.ok { w with reqs := w.reqs ++ [{ r with ctx := ctx }] } w.reqs.length

/-! ## Constants of `session.go` -/

def authenticatedKey : Any := Any.str "authenticated"
def stateKey : Any := Any.str "state"
def nameKey : Any := Any.str "name"
def emailKey : Any := Any.str "email"

/-- The placeholder token of line 69. -/
def statePlaceholder : String := "notrandomatthemoment"

/-! ## `WithSession` -/

/-- Lines 66 to 78: fill in `state` and `authenticated` where the session does not
hold a value of the right type. -/
def initSession (s : Sess) : Sess :=
  let s1 : Sess :=
    if (s.Values.get stateKey).isString = false then
      { s with Values := s.Values.set stateKey (Any.str statePlaceholder) }
    else s
  if (s1.Values.get authenticatedKey).isBool = false then
    { s1 with Values := s1.Values.set authenticatedKey (Any.bool false) }
  else s1

/-- Lines 84 to 88: the four `context.WithValue` calls on the session's values,
the first of them on the nil interface that `var ctx context.Context` of line
84 declares. -/
def sessionContext (s : Sess) : Except String Ctx :=
  match WithValue Ctx.nil authenticatedKey (s.Values.get authenticatedKey) with
  | Except.error e => Except.error e
  | Except.ok c1 =>
  match WithValue c1 stateKey (s.Values.get stateKey) with
  | Except.error e => Except.error e
  | Except.ok c2 =>
  match WithValue c2 nameKey (s.Values.get nameKey) with
  | Except.error e => Except.error e
  | Except.ok c3 => WithValue c3 emailKey (s.Values.get emailKey)

/-- Lines 60 to 91 up to the call of `next`: on `Result.ok w1 r1` the handler goes on
to call `next.ServeHTTP` once, on the response of `w1` and the request `r1`;
on `Result.panic` it has not called `next`. A
request index that is not on the heap stands for a nil `*http.Request`, which
the store dereferences when it reads the cookie. -/
def withSessionBody (w : World) (r : Nat) : Result Nat :=
  match w.reqs[r]? with
  | none => Result.panic w "invalid memory address or nil pointer dereference"
  | some req =>
    -- s, err := store.Get(r, sessionName)
    let w1 : World :=
      match w.getErr with
      | some e => { w with resp := w.resp.Error e StatusInternalServerError }
      | none => w
    -- no return after http.Error: execution continues with s
    match w1.session with
    | none => Result.panic w1 "invalid memory address or nil pointer dereference"
    | some s =>
      let s1 := initSession s
      let w2 : World := { w1 with session := some s1 }
      -- _ = s.Save(r, w)
      let w3 := (w2.Save s1).1
      match sessionContext s1 with
      | Except.error e => Result.panic w3 e
      | Except.ok ctx => w3.WithContext req ctx

/-- The handler that `WithSession(next)` returns. -/
def WithSession (next : Handler) : Handler := fun w r =>
  match withSessionBody w r with
  | Result.panic w1 msg => Result.panic w1 msg
  | Result.ok w1 r1 => next w1 r1

/-! ## `SaveSession` -/

/-- Lines 105 to 109, the loop over `info` in the order the map iteration yields
its entries: each entry is stored in the session and folded into a fresh
request whose context extends that of the current request. -/
def saveLoop : List (String × String) → World → Sess → Nat → Result (Sess × Nat)
  | [], w, s, r => Result.ok w (s, r)
  | (k, v) :: rest, w, s, r =>
    -- s.Values[k] = v
    let s1 : Sess := { s with Values := s.Values.set (Any.str k) (Any.str v) }
    let w1 : World := { w with session := some s1 }
    -- r = r.WithContext(context.WithValue(r.Context(), k, v))
    match w1.reqs[r]? with
    | none => Result.panic w1 "invalid memory address or nil pointer dereference"
    | some req =>
      match WithValue req.Context (Any.str k) (Any.str v) with
      | Except.error e => Result.panic w1 e
      | Except.ok ctx =>
        match w1.WithContext req ctx with
        | Result.panic w2 msg => Result.panic w2 msg
        | Result.ok w2 r2 => saveLoop rest w2 s1 r2

/-- The function `SaveSession(info, w, r)`; its two results are the request pointer
(`none` when nil) and the error (`none` when nil). -/
def SaveSession (info : List (String × String)) (w : World) (r : Nat) :
    Result (Option Nat × Option String) :=
  match w.reqs[r]? with
  | none => Result.panic w "invalid memory address or nil pointer dereference"
  | some _ =>
    -- s, err := store.Get(r, sessionName)
    match w.getErr with
    | some e =>
      Result.ok { w with resp := w.resp.Error "failed to get session" StatusInternalServerError }
        (none, some e)
    | none =>
      match w.session with
      | none => Result.panic w "invalid memory address or nil pointer dereference"
      | some s =>
        let s1 : Sess := { s with Values := s.Values.set authenticatedKey (Any.bool true) }
        let w1 : World := { w with session := some s1 }
        match saveLoop info w1 s1 r with
        | Result.panic w2 msg => Result.panic w2 msg
        | Result.ok w2 (s2, r2) =>
          -- err = s.Save(r, w); return r, err
          let out := w2.Save s2
          Result.ok out.1 (some r2, out.2)

/-! ## `UserInfoHandler` -/

/-- The replacement that `html.EscapeString` (golang.org/x/net/html) makes for one
character: the six characters of its `escapedChars` get an entity, any other
character stays. The characters 39, 34 and 13 are the apostrophe, the double
quote and the carriage return. -/
def escapeOne (c : Char) : String :=
  if c = '&' then "&amp;"
  else if c = Char.ofNat 39 then "&#39;"
  else if c = '<' then "&lt;"
  else if c = '>' then "&gt;"
  else if c = Char.ofNat 34 then "&#34;"
  else if c = Char.ofNat 13 then "&#13;"
  else String.singleton c

/-- The scan of `html.EscapeString` over the characters of its argument. -/
def escapeList : List Char → List Char
  | [] => []
  | c :: cs => (escapeOne c).data ++ escapeList cs

/-- The library function `html.EscapeString`. A Go string is a byte sequence; the
escaped characters are all ASCII, so the replacement is the same on the
characters of the text. -/
def EscapeString (s : String) : String := ⟨escapeList s.data⟩

/-- The function `UserInfoHandler(w, r)`; line 116 is the single-result type
assertion `.(string)`, which panics unless the value is a string. -/
def UserInfoHandler : Handler := fun w r =>
  match w.reqs[r]? with
  | none => Result.panic w "invalid memory address or nil pointer dereference"
  | some req =>
    match req.Context.Value nameKey with
    | Except.error e => Result.panic w e
    | Except.ok (Any.str name) =>
      -- fmt.Fprintf(w, "Hello %s!", html.EscapeString(name))
      Result.ok { w with resp := w.resp.Write ("Hello " ++ EscapeString name ++ "!") } ()
    | Except.ok Any.nil =>
      Result.panic w "interface conversion: interface \x7b\x7d is nil, not string"
    | Except.ok (Any.bool _) =>
      Result.panic w "interface conversion: interface \x7b\x7d is bool, not string"
    | Except.ok _ =>
      Result.panic w "interface conversion: interface \x7b\x7d is not string"

/-! ## Concrete worlds used in the evaluations below -/

/-- A request with a server-made root context, a fresh session without values, a
store that answers without error, and nothing written yet. -/
def freshWorld : World :=
  { session := some { Values := [] }, getErr := none, saveErr := none, saved := [],
    resp := { status := none, body := "" }, reqs := [{ ctx := Ctx.background }] }

/-- The world of `freshWorld` with a store whose `Get` hands out the new session
together with an error, as the cookie stores do for a cookie that fails to
decode. -/
def failedFetchWorld : World := { freshWorld with getErr := some "boom" }

/-- A next handler that leaves a mark in the response body. -/
def markingHandler : Handler := fun w _ =>
  Result.ok { w with resp := w.resp.Write "next ran" } ()

/-- The world of `freshWorld` with a session that holds a token and the flag set. -/
def initializedWorld : World :=
  { freshWorld with
    session := some { Values := [(stateKey, Any.str "tok"), (authenticatedKey, Any.bool true)] } }

/-- The world of `freshWorld` with a session that holds a name and a state that is
not a string, and a store whose save fails. -/
def namedWorld : World :=
  { freshWorld with
    session := some { Values := [(nameKey, Any.str "Alice"), (stateKey, Any.other 7)] },
    saveErr := some "write failed" }

/-- A request whose context holds the name `<script>`. -/
def scriptWorld : World :=
  { freshWorld with reqs := [{ ctx := Ctx.value Ctx.background nameKey (Any.str "<script>") }] }

/-- A request whose context holds a boolean under the key `name`. -/
def wrongTypeWorld : World :=
  { freshWorld with reqs := [{ ctx := Ctx.value Ctx.background nameKey (Any.bool true) }] }

/-! ## Lemmas on maps and contexts -/

theorem Values.get_filter_ne (m : Values) (k key : Any) (h : key ≠ k) :
    Values.get (m.filter (fun p => !decide (p.1 = k))) key = Values.get m key := by
  induction m with
  | nil => rfl
  | cons p rest ih =>
    obtain ⟨a, b⟩ := p
    by_cases hak : a = k
    · subst hak
      have hne : a ≠ key := fun e => h e.symm
      simp [List.filter, Values.get, hne, ih]
    · by_cases hakey : a = key
      · subst hakey
        simp [List.filter, Values.get, hak]
      · simp [List.filter, Values.get, hak, hakey, ih]

theorem Values.get_set_same (m : Values) (k v : Any) : (m.set k v).get k = v := by
  simp [Values.set, Values.get]

theorem Values.get_set_ne (m : Values) (k v key : Any) (h : key ≠ k) :
    (m.set k v).get key = m.get key := by
  have hne : k ≠ key := fun e => h e.symm
  simp only [Values.set, Values.get, if_neg hne]
  exact Values.get_filter_ne m k key h

theorem Values.get_of_absent (m : Values) (k : Any) (h : ∀ v, (k, v) ∉ m) :
    m.get k = Any.nil := by
  induction m with
  | nil => rfl
  | cons p rest ih =>
    obtain ⟨a, b⟩ := p
    have hak : a ≠ k := by
      intro e
      subst e
      exact h b (List.mem_cons_self _ _)
    simp only [Values.get, if_neg hak]
    exact ih (fun v hv => h v (List.mem_cons_of_mem _ hv))

theorem Request.Context_ne_nil (r : Request) : r.Context ≠ Ctx.nil := by
  unfold Request.Context
  split_ifs with h
  · intro e; cases e
  · exact h

/-! ## Lemmas on `WithSession` -/

theorem initSession_of_set (s : Sess) (st : String) (b : Bool)
    (hst : s.Values.get stateKey = Any.str st)
    (hb : s.Values.get authenticatedKey = Any.bool b) : initSession s = s := by
  simp [initSession, hst, hb, Any.isString, Any.isBool]

theorem initSession_get_state (s : Sess) :
    (initSession s).Values.get stateKey =
      if (s.Values.get stateKey).isString = false then Any.str statePlaceholder
      else s.Values.get stateKey := by
  have hk : stateKey ≠ authenticatedKey := by decide
  unfold initSession
  by_cases h1 : (s.Values.get stateKey).isString = false <;>
    by_cases h2 : (s.Values.get authenticatedKey).isBool = false <;>
    simp [h1, h2, Values.get_set_same, Values.get_set_ne _ _ _ _ hk,
      Values.get_set_ne _ _ _ _ hk.symm]

theorem initSession_get_authenticated (s : Sess) :
    (initSession s).Values.get authenticatedKey =
      if (s.Values.get authenticatedKey).isBool = false then Any.bool false
      else s.Values.get authenticatedKey := by
  have hk : stateKey ≠ authenticatedKey := by decide
  unfold initSession
  by_cases h1 : (s.Values.get stateKey).isString = false <;>
    by_cases h2 : (s.Values.get authenticatedKey).isBool = false <;>
    simp [h1, h2, Values.get_set_same, Values.get_set_ne _ _ _ _ hk,
      Values.get_set_ne _ _ _ _ hk.symm]

theorem initSession_get_other (s : Sess) (key : Any) (h1 : key ≠ stateKey)
    (h2 : key ≠ authenticatedKey) :
    (initSession s).Values.get key = s.Values.get key := by
  unfold initSession
  by_cases c1 : (s.Values.get stateKey).isString = false <;>
    by_cases c2 : (s.Values.get authenticatedKey).isBool = false <;>
    simp [c1, c2, Values.get_set_ne _ _ _ _ h1, Values.get_set_ne _ _ _ _ h2,
      Values.get_set_ne _ _ _ _ (show authenticatedKey ≠ stateKey by decide)]

theorem sessionContext_eq (s : Sess) :
    sessionContext s = Except.error "cannot create context from nil parent" := by
  simp [sessionContext, WithValue]

/-- With a valid request and a non-nil session the body initializes and saves the
session and then ends in the panic of line 85; no request object is added, and
the world reached is the one listed. -/
theorem withSessionBody_panics (w : World) (r : Nat) (req : Request) (s : Sess)
    (hr : w.reqs[r]? = some req) (hs : w.session = some s) :
    ∃ w1, withSessionBody w r = Result.panic w1 "cannot create context from nil parent" ∧
      w1.session = some (initSession s) ∧ w1.getErr = w.getErr ∧ w1.saveErr = w.saveErr ∧
      w1.reqs = w.reqs ∧
      w1.resp = (match w.getErr with
        | some e => w.resp.Error e StatusInternalServerError
        | none => w.resp) ∧
      w1.saved = (match w.saveErr with
        | none => w.saved ++ [(initSession s).Values]
        | some _ => w.saved) := by
  have hc := sessionContext_eq (initSession s)
  cases hg : w.getErr <;> cases hv : w.saveErr <;>
    simp only [withSessionBody, hr, hg, hs, hc, World.Save, hv] <;>
    simp

theorem WithSession_eq_panic (w w1 : World) (r : Nat) (msg : String)
    (h : withSessionBody w r = Result.panic w1 msg) (next : Handler) :
    WithSession next w r = Result.panic w1 msg := by
  simp [WithSession, h]

theorem Response.Error_body (w : Response) (msg : String) (code : Nat) :
    (w.Error msg code).body = w.body ++ (msg ++ "\n") := by
  cases hst : w.status <;> simp [Response.Error, Response.WriteHeader, Response.Write, hst]

theorem Response.Error_status (w : Response) (msg : String) (code : Nat)
    (h : w.status = none) : (w.Error msg code).status = some code := by
  simp [Response.Error, Response.WriteHeader, Response.Write, h]

/-! ## The claims on `WithSession` -/

/-- C1: on a request whose fetch returns an error the handler writes the 500 response
with the error text and does not call the next handler: its run is the same
for every next handler and ends in a panic, at line 66 when the store gave no
session and at line 85 otherwise. There being no return after `http.Error`, a
session the store did give is still initialized before that. -/
theorem WithSession_failed_fetch_writes_500_without_next (w : World) (r : Nat)
    (req : Request) (e : String)
    (hr : w.reqs[r]? = some req) (hget : w.getErr = some e) :
    ∃ w1 msg,
      withSessionBody w r = Result.panic w1 msg ∧
      (∀ next : Handler, WithSession next w r = Result.panic w1 msg) ∧
      w1.resp = w.resp.Error e StatusInternalServerError ∧
      (w.resp.status = none → w1.resp.status = some 500) ∧
      w1.resp.body = w.resp.body ++ (e ++ "\n") ∧
      (∀ s, w.session = some s → w1.session = some (initSession s)) := by
  cases hs : w.session with
  | none =>
    have hbody : withSessionBody w r =
        Result.panic { w with resp := w.resp.Error e StatusInternalServerError }
          "invalid memory address or nil pointer dereference" := by
      simp only [withSessionBody, hr, hget, hs]
    exact ⟨_, _, hbody, fun next => WithSession_eq_panic _ _ _ _ hbody next, rfl,
      fun h => Response.Error_status _ _ _ h, Response.Error_body _ _ _,
      fun s h => absurd h (by simp)⟩
  | some s =>
    obtain ⟨w1, hbody, hsess, -, -, -, hresp, -⟩ := withSessionBody_panics w r req s hr hs
    rw [hget] at hresp
    refine ⟨w1, _, hbody, fun next => WithSession_eq_panic _ _ _ _ hbody next, hresp, ?_, ?_, ?_⟩
    · intro h
      rw [hresp]
      exact Response.Error_status _ _ _ h
    · rw [hresp]
      exact Response.Error_body _ _ _
    · intro s2 h
      injection h with h
      rw [← h]
      exact hsess

theorem WithSession_failed_fetch_writes_500_without_next_witness :
    failedFetchWorld.reqs[0]? = some { ctx := Ctx.background } ∧
    failedFetchWorld.getErr = some "boom" ∧
    ∃ w1 msg,
      withSessionBody failedFetchWorld 0 = Result.panic w1 msg ∧
      (∀ next : Handler, WithSession next failedFetchWorld 0 = Result.panic w1 msg) ∧
      w1.resp = failedFetchWorld.resp.Error "boom" StatusInternalServerError ∧
      (failedFetchWorld.resp.status = none → w1.resp.status = some 500) ∧
      w1.resp.body = failedFetchWorld.resp.body ++ ("boom" ++ "\n") ∧
      (∀ s, failedFetchWorld.session = some s → w1.session = some (initSession s)) :=
  ⟨rfl, rfl, WithSession_failed_fetch_writes_500_without_next failedFetchWorld 0
    { ctx := Ctx.background } "boom" rfl rfl⟩

/-- C2, evaluated on the code: on a request whose fetch succeeds with a session that
has no values, the handler stores `authenticated = false` and the placeholder
`state` and saves them, and then panics at line 85 on the nil parent of line
84: for every next handler the run is that panic, no request with a new
context exists, and a next handler that would mark the response has left no
mark. -/
theorem WithSession_fresh_session_panics :
    ∃ w1,
      (∀ next : Handler, WithSession next freshWorld 0 =
        Result.panic w1 "cannot create context from nil parent") ∧
      WithSession markingHandler freshWorld 0 =
        Result.panic w1 "cannot create context from nil parent" ∧
      w1.session = some { Values :=
        [(authenticatedKey, Any.bool false), (stateKey, Any.str "notrandomatthemoment")] } ∧
      w1.saved =
        [[(authenticatedKey, Any.bool false), (stateKey, Any.str "notrandomatthemoment")]] ∧
      w1.reqs = freshWorld.reqs ∧ w1.resp = freshWorld.resp :=
  ⟨_, fun _ => rfl, rfl, rfl, rfl, rfl, rfl⟩

/-- C3, counterexample: a value that is set but has another type is overwritten.
`SaveSession` with the info entry `authenticated = no` leaves that string in
the session, and the next run of the handler replaces it by the boolean false;
a `state` that is not a string is replaced by the placeholder. -/
theorem WithSession_overwrites_set_values_of_other_type :
    (∃ w1 out w2 msg s1 s2,
      SaveSession [("authenticated", "no")] initializedWorld 0 = Result.ok w1 out ∧
      w1.session = some s1 ∧
      s1.Values.get stateKey = Any.str "tok" ∧
      s1.Values.get authenticatedKey = Any.str "no" ∧
      (∀ next : Handler, WithSession next w1 0 = Result.panic w2 msg) ∧
      w2.session = some s2 ∧
      s2.Values.get authenticatedKey = Any.bool false ∧
      s2.Values.get authenticatedKey ≠ s1.Values.get authenticatedKey) ∧
    (∃ w2 msg s2,
      Values.get [(nameKey, Any.str "Alice"), (stateKey, Any.other 7)] stateKey = Any.other 7 ∧
      (∀ next : Handler, WithSession next namedWorld 0 = Result.panic w2 msg) ∧
      w2.session = some s2 ∧
      s2.Values.get stateKey = Any.str "notrandomatthemoment") :=
  ⟨⟨_, _, _, _, _, _, rfl, rfl, by decide, by decide, fun _ => rfl, rfl, by decide, by decide⟩,
    ⟨_, _, _, by decide, fun _ => rfl, rfl, by decide⟩⟩

/-- C3, amended: when the session already holds a string `state` and a boolean
`authenticated`, a run of the handler leaves the session as it was, and so
does a second run in the world the first one reached; every value map saved on
the way holds the same `state` and `authenticated`. -/
theorem WithSession_idempotent (w : World) (r : Nat) (req : Request) (s : Sess)
    (st : String) (b : Bool)
    (hr : w.reqs[r]? = some req) (hs : w.session = some s)
    (hst : s.Values.get stateKey = Any.str st)
    (hb : s.Values.get authenticatedKey = Any.bool b) :
    ∃ w1 w2 msg,
      (∀ next : Handler, WithSession next w r = Result.panic w1 msg) ∧
      (∀ next : Handler, WithSession next w1 r = Result.panic w2 msg) ∧
      (∃ s1, w1.session = some s1 ∧ s1 = s ∧
        s1.Values.get stateKey = Any.str st ∧ s1.Values.get authenticatedKey = Any.bool b) ∧
      (∃ s2, w2.session = some s2 ∧ s2 = s ∧
        s2.Values.get stateKey = Any.str st ∧ s2.Values.get authenticatedKey = Any.bool b) ∧
      (∀ vals ∈ w2.saved, vals ∈ w.saved ∨
        (vals.get stateKey = Any.str st ∧ vals.get authenticatedKey = Any.bool b)) := by
  have hinit : initSession s = s := initSession_of_set s st b hst hb
  obtain ⟨w1, hbody1, hsess1, -, hsv1, hreqs1, -, hsaved1⟩ :=
    withSessionBody_panics w r req s hr hs
  rw [hinit] at hsess1 hsaved1
  have hr1 : w1.reqs[r]? = some req := by rw [hreqs1]; exact hr
  obtain ⟨w2, hbody2, hsess2, -, -, -, -, hsaved2⟩ :=
    withSessionBody_panics w1 r req s hr1 hsess1
  rw [hinit] at hsess2 hsaved2
  refine ⟨w1, w2, _, fun next => WithSession_eq_panic _ _ _ _ hbody1 next,
    fun next => WithSession_eq_panic _ _ _ _ hbody2 next,
    ⟨s, hsess1, rfl, hst, hb⟩, ⟨s, hsess2, rfl, hst, hb⟩, ?_⟩
  intro vals hv
  rw [hsaved2, hsv1, hsaved1] at hv
  cases hsv : w.saveErr with
  | none =>
    simp only [hsv, List.mem_append, List.mem_singleton] at hv
    rcases hv with (hv | hv) | hv
    · exact Or.inl hv
    · exact Or.inr (by rw [hv]; exact ⟨hst, hb⟩)
    · exact Or.inr (by rw [hv]; exact ⟨hst, hb⟩)
  | some e =>
    simp only [hsv] at hv
    exact Or.inl hv

theorem WithSession_idempotent_witness :
    initializedWorld.reqs[0]? = some { ctx := Ctx.background } ∧
    initializedWorld.session =
      some { Values := [(stateKey, Any.str "tok"), (authenticatedKey, Any.bool true)] } ∧
    ∃ w1 w2 msg,
      (∀ next : Handler, WithSession next initializedWorld 0 = Result.panic w1 msg) ∧
      (∀ next : Handler, WithSession next w1 0 = Result.panic w2 msg) ∧
      (∃ s1, w1.session = some s1 ∧
        s1 = { Values := [(stateKey, Any.str "tok"), (authenticatedKey, Any.bool true)] } ∧
        s1.Values.get stateKey = Any.str "tok" ∧
        s1.Values.get authenticatedKey = Any.bool true) ∧
      (∃ s2, w2.session = some s2 ∧
        s2 = { Values := [(stateKey, Any.str "tok"), (authenticatedKey, Any.bool true)] } ∧
        s2.Values.get stateKey = Any.str "tok" ∧
        s2.Values.get authenticatedKey = Any.bool true) ∧
      (∀ vals ∈ w2.saved, vals ∈ initializedWorld.saved ∨
        (vals.get stateKey = Any.str "tok" ∧ vals.get authenticatedKey = Any.bool true)) :=
  ⟨rfl, rfl, WithSession_idempotent initializedWorld 0 { ctx := Ctx.background }
    { Values := [(stateKey, Any.str "tok"), (authenticatedKey, Any.bool true)] } "tok" true
    rfl rfl (by decide) (by decide)⟩

/-- C9, evaluated on the code: on a request whose fetch and save succeed the handler
never calls the next handler. `context.WithValue` panics on the nil parent
that line 84 declares, so for every next handler the run is the panic of line
85, reached after the save; the request heap holds no request with a context
for the four keys, and a next handler that would mark the response has left no
mark. -/
theorem WithSession_panics_before_next :
    ∃ w1,
      withSessionBody initializedWorld 0 =
        Result.panic w1 "cannot create context from nil parent" ∧
      (∀ next : Handler, WithSession next initializedWorld 0 =
        Result.panic w1 "cannot create context from nil parent") ∧
      WithSession markingHandler initializedWorld 0 =
        Result.panic w1 "cannot create context from nil parent" ∧
      w1.saved = [[(stateKey, Any.str "tok"), (authenticatedKey, Any.bool true)]] ∧
      w1.reqs = [{ ctx := Ctx.background }] ∧
      w1.resp = { status := none, body := "" } :=
  ⟨_, rfl, fun _ => rfl, rfl, rfl, rfl, rfl⟩

/-! ## Lemmas on `SaveSession` -/

/-- The loop over an `info` with distinct keys runs to its end; it only adds request
objects to the heap, and the session and the context of the request it ends on
hold every entry of `info` and are unchanged at every other key. -/
theorem saveLoop_ok (info : List (String × String)) :
    (info.map Prod.fst).Nodup → ∀ (w : World) (s : Sess) (r : Nat) (req : Request),
    w.reqs[r]? = some req →
    ∃ w1 s1 r1 req1, saveLoop info w s r = Result.ok w1 (s1, r1) ∧
      w1.reqs[r1]? = some req1 ∧
      (∃ extra, w1.reqs = w.reqs ++ extra) ∧
      (info = [] → r1 = r) ∧ (info ≠ [] → w.reqs.length ≤ r1) ∧
      (w.session = some s → w1.session = some s1) ∧
      w1.getErr = w.getErr ∧ w1.saveErr = w.saveErr ∧ w1.saved = w.saved ∧
      w1.resp = w.resp ∧
      (∀ k v, (k, v) ∈ info →
        s1.Values.get (Any.str k) = Any.str v ∧
        req1.Context.Value (Any.str k) = Except.ok (Any.str v)) ∧
      (∀ key, (∀ k v, (k, v) ∈ info → key ≠ Any.str k) →
        s1.Values.get key = s.Values.get key ∧
        req1.Context.Value key = req.Context.Value key) := by
  induction info with
  | nil =>
    intro _ w s r req hr
    exact ⟨w, s, r, req, rfl, hr, ⟨[], by simp⟩, fun _ => rfl, fun h => absurd rfl h,
      fun h => h, rfl, rfl, rfl, rfl, fun k v h => absurd h (List.not_mem_nil _),
      fun key _ => ⟨rfl, rfl⟩⟩
  | cons p rest ih =>
    obtain ⟨k, v⟩ := p
    intro hnd w s r req hr
    have hnd2 : (rest.map Prod.fst).Nodup := (List.nodup_cons.mp hnd).2
    have hk : ∀ k2 v2, (k2, v2) ∈ rest → Any.str k ≠ Any.str k2 := by
      intro k2 v2 hmem e
      injection e with e
      subst e
      exact (List.nodup_cons.mp hnd).1 (List.mem_map.mpr ⟨(k, v2), hmem, rfl⟩)
    -- the state after the first iteration
    let s0 : Sess := { s with Values := s.Values.set (Any.str k) (Any.str v) }
    let c0 : Ctx := Ctx.value req.Context (Any.str k) (Any.str v)
    let w0 : World :=
      { w with session := some s0, reqs := w.reqs ++ [{ req with ctx := c0 }] }
    have hr0 : w0.reqs[w.reqs.length]? = some { req with ctx := c0 } := by
      simp [w0]
    obtain ⟨w1, s1, r1, req1, hrun, hreq1, ⟨extra, hext⟩, hnil0, hcons0, hsess, hg, hsv, hsd,
      hresp, hin, hout⟩ := ih hnd2 w0 s0 w.reqs.length _ hr0
    have hctx0 : (Request.mk c0).Context = c0 := by simp [Request.Context, c0]
    refine ⟨w1, s1, r1, req1, ?_, hreq1, ⟨{ req with ctx := c0 } :: extra, ?_⟩, ?_, ?_, ?_,
      hg, hsv, hsd, hresp, ?_, ?_⟩
    · simp only [saveLoop, hr, WithValue, World.WithContext,
        if_neg (Request.Context_ne_nil req)]
      simpa [w0, s0, c0] using hrun
    · rw [hext]; simp [w0]
    · intro h; cases h
    · intro _
      by_cases hrest : rest = []
      · exact le_of_eq (hnil0 hrest).symm
      · have h := hcons0 hrest
        simp only [w0, List.length_append, List.length_singleton] at h
        omega
    · intro _
      exact hsess rfl
    · intro k2 v2 hmem
      rcases List.mem_cons.mp hmem with heq | hmem2
      · injection heq with e1 e2
        subst e1; subst e2
        obtain ⟨hv1, hv2⟩ := hout (Any.str k2) (hk)
        refine ⟨?_, ?_⟩
        · rw [hv1]; exact Values.get_set_same _ _ _
        · rw [hv2]
          show (Request.mk c0).Context.Value (Any.str k2) = _
          rw [hctx0]; simp [c0, Ctx.Value]
      · exact hin k2 v2 hmem2
    · intro key hkey
      have hne : key ≠ Any.str k := hkey k v (List.mem_cons_self _ _)
      obtain ⟨hv1, hv2⟩ := hout key (fun k2 v2 hm => hkey k2 v2 (List.mem_cons_of_mem _ hm))
      refine ⟨?_, ?_⟩
      · rw [hv1]; exact Values.get_set_ne _ _ _ _ hne
      · rw [hv2]
        show (Request.mk c0).Context.Value key = _
        rw [hctx0]
        have hne2 : Any.str k ≠ key := fun e => hne e.symm
        simp [c0, Ctx.Value, hne2]

/-- With a valid request and a fetch that succeeds, `SaveSession` returns a request
and the result of the save; the world, session and request it ends on are the
ones listed. -/
theorem SaveSession_ok (info : List (String × String)) (hnd : (info.map Prod.fst).Nodup)
    (w : World) (r : Nat) (req : Request) (s : Sess)
    (hr : w.reqs[r]? = some req) (hs : w.session = some s) (hget : w.getErr = none) :
    ∃ w1 r1 req1 s1, SaveSession info w r = Result.ok w1 (some r1, w.saveErr) ∧
      w1.reqs[r1]? = some req1 ∧
      (∃ extra, w1.reqs = w.reqs ++ extra) ∧
      (info = [] → r1 = r) ∧ (info ≠ [] → w.reqs.length ≤ r1) ∧
      w1.session = some s1 ∧ w1.resp = w.resp ∧ w1.getErr = none ∧
      w1.saved = (match w.saveErr with
        | none => w.saved ++ [s1.Values]
        | some _ => w.saved) ∧
      (∀ k v, (k, v) ∈ info →
        s1.Values.get (Any.str k) = Any.str v ∧
        req1.Context.Value (Any.str k) = Except.ok (Any.str v)) ∧
      (∀ key, (∀ k v, (k, v) ∈ info → key ≠ Any.str k) →
        s1.Values.get key = (s.Values.set authenticatedKey (Any.bool true)).get key ∧
        req1.Context.Value key = req.Context.Value key) := by
  obtain ⟨w1, s1, r1, req1, hrun, hreq1, hext, hnil, hcons, hsess, hg, hsv, hsd, hresp, hin,
    hout⟩ := saveLoop_ok info hnd
      { w with session := some { s with Values := s.Values.set authenticatedKey (Any.bool true) } }
      { s with Values := s.Values.set authenticatedKey (Any.bool true) } r req hr
  have hsess1 := hsess rfl
  simp only [hget] at hrun hg
  cases hv : w.saveErr with
  | none =>
    have hsv1 : w1.saveErr = none := by rw [hsv]; exact hv
    refine ⟨{ w1 with saved := w1.saved ++ [s1.Values] }, r1, req1, s1, ?_, hreq1, hext, hnil,
      hcons, hsess1, hresp, hg, ?_, hin, hout⟩
    · simp only [SaveSession, hr, hget, hs, hrun, World.Save, hsv1]
    · simp [hsd]
  | some e =>
    have hsv1 : w1.saveErr = some e := by rw [hsv]; exact hv
    refine ⟨w1, r1, req1, s1, ?_, hreq1, hext, hnil, hcons, hsess1, hresp, hg, ?_, hin, hout⟩
    · simp only [SaveSession, hr, hget, hs, hrun, World.Save, hsv1]
    · simp [hsd]

/-! ## The claims on `SaveSession` -/

/-- C4, counterexample: an `info` that has the key `authenticated` overwrites the
flag that line 104 set, so the persisted session holds the string of `info`
under `authenticated` and not the boolean true. -/
theorem SaveSession_info_overrides_authenticated :
    (List.map Prod.fst [("authenticated", "no")]).Nodup ∧
    freshWorld.getErr = none ∧ freshWorld.saveErr = none ∧
    ∃ w1 r1 vals,
      SaveSession [("authenticated", "no")] freshWorld 0 = Result.ok w1 (some r1, none) ∧
      w1.saved = [vals] ∧ w1.session = some { Values := vals } ∧
      vals.get authenticatedKey = Any.str "no" ∧
      vals.get authenticatedKey ≠ Any.bool true :=
  ⟨by decide, rfl, rfl, _, _, _, rfl, rfl, rfl, by decide, by decide⟩

/-- C4, amended: when the fetch and the save succeed, `SaveSession` persists one value
map, that of the session object later fetches of the request get; it holds
`info[k]` under every key `k` of `info`, the boolean true under `authenticated`
when `info` has no key `authenticated`, and the previous value under every key
that is neither `authenticated` nor in `info`. -/
theorem SaveSession_persists_info (info : List (String × String))
    (hnd : (info.map Prod.fst).Nodup) (w : World) (r : Nat) (req : Request) (s : Sess)
    (hr : w.reqs[r]? = some req) (hs : w.session = some s) (hget : w.getErr = none)
    (hsave : w.saveErr = none) :
    ∃ w1 r1 vals,
      SaveSession info w r = Result.ok w1 (some r1, none) ∧
      w1.saved = w.saved ++ [vals] ∧
      w1.session = some { Values := vals } ∧ w1.getErr = none ∧
      (∀ k v, (k, v) ∈ info → vals.get (Any.str k) = Any.str v) ∧
      ((∀ v, ("authenticated", v) ∉ info) → vals.get authenticatedKey = Any.bool true) ∧
      (∀ key, key ≠ authenticatedKey → (∀ k v, (k, v) ∈ info → key ≠ Any.str k) →
        vals.get key = s.Values.get key) := by
  obtain ⟨w1, r1, req1, s1, hrun, -, -, -, -, hsess, -, hg1, hsaved, hin, hout⟩ :=
    SaveSession_ok info hnd w r req s hr hs hget
  rw [hsave] at hrun hsaved
  refine ⟨w1, r1, s1.Values, hrun, hsaved, hsess, hg1, fun k v hkv => (hin k v hkv).1, ?_, ?_⟩
  · intro habs
    have h := (hout authenticatedKey (fun k v hkv e => by
      injection e with e
      subst e
      exact habs v hkv)).1
    rw [h, Values.get_set_same]
  · intro key hkey hnot
    rw [(hout key hnot).1, Values.get_set_ne _ _ _ _ hkey]

theorem SaveSession_persists_info_witness :
    (List.map Prod.fst [("name", "Alice"), ("email", "a@x.com")]).Nodup ∧
    initializedWorld.reqs[0]? = some { ctx := Ctx.background } ∧
    initializedWorld.getErr = none ∧ initializedWorld.saveErr = none ∧
    ∃ w1 r1 vals,
      SaveSession [("name", "Alice"), ("email", "a@x.com")] initializedWorld 0 =
        Result.ok w1 (some r1, none) ∧
      w1.saved = initializedWorld.saved ++ [vals] ∧
      w1.session = some { Values := vals } ∧ w1.getErr = none ∧
      (∀ k v, (k, v) ∈ [("name", "Alice"), ("email", "a@x.com")] →
        vals.get (Any.str k) = Any.str v) ∧
      ((∀ v, ("authenticated", v) ∉ [("name", "Alice"), ("email", "a@x.com")]) →
        vals.get authenticatedKey = Any.bool true) ∧
      (∀ key, key ≠ authenticatedKey →
        (∀ k v, (k, v) ∈ [("name", "Alice"), ("email", "a@x.com")] → key ≠ Any.str k) →
        vals.get key =
          Values.get [(stateKey, Any.str "tok"), (authenticatedKey, Any.bool true)] key) :=
  ⟨by decide, rfl, rfl, rfl,
    SaveSession_persists_info [("name", "Alice"), ("email", "a@x.com")] (by decide)
      initializedWorld 0 { ctx := Ctx.background }
      { Values := [(stateKey, Any.str "tok"), (authenticatedKey, Any.bool true)] }
      rfl rfl rfl rfl⟩

/-- C5: when the fetch succeeds, the request `SaveSession` returns has a context that
answers every key `k` of `info` with `info[k]` and every other key as the
context of the incoming request does; for a non-empty `info` it is a newly
allocated request, and every request object that existed before the call, the
incoming one included, is as it was. -/
theorem SaveSession_context_frame (info : List (String × String))
    (hnd : (info.map Prod.fst).Nodup) (w : World) (r : Nat) (req : Request) (s : Sess)
    (hr : w.reqs[r]? = some req) (hs : w.session = some s) (hget : w.getErr = none) :
    ∃ w1 r1 req1,
      SaveSession info w r = Result.ok w1 (some r1, w.saveErr) ∧
      w1.reqs[r1]? = some req1 ∧
      (∀ k v, (k, v) ∈ info → req1.Context.Value (Any.str k) = Except.ok (Any.str v)) ∧
      (∀ key, (∀ k v, (k, v) ∈ info → key ≠ Any.str k) →
        req1.Context.Value key = req.Context.Value key) ∧
      (info ≠ [] → w.reqs.length ≤ r1 ∧ r1 ≠ r) ∧
      w1.reqs[r]? = some req ∧
      (∀ (i : Nat) (r0 : Request), w.reqs[i]? = some r0 → w1.reqs[i]? = some r0) := by
  obtain ⟨w1, r1, req1, s1, hrun, hreq1, ⟨extra, hext⟩, -, hcons, -, -, -, -, hin, hout⟩ :=
    SaveSession_ok info hnd w r req s hr hs hget
  have hframe : ∀ (i : Nat) (r0 : Request), w.reqs[i]? = some r0 → w1.reqs[i]? = some r0 := by
    intro i r0 h
    have hlt : i < w.reqs.length := by
      by_contra hge
      rw [List.getElem?_eq_none (Nat.le_of_not_lt hge)] at h
      cases h
    rw [hext, List.getElem?_append_left hlt]
    exact h
  refine ⟨w1, r1, req1, hrun, hreq1, fun k v hkv => (hin k v hkv).2,
    fun key hkey => (hout key hkey).2, ?_, hframe r req hr, hframe⟩
  intro hne
  have hge := hcons hne
  have hlt : r < w.reqs.length := by
    by_contra hge2
    rw [List.getElem?_eq_none (Nat.le_of_not_lt hge2)] at hr
    cases hr
  exact ⟨hge, by omega⟩

theorem SaveSession_context_frame_witness :
    (List.map Prod.fst [("name", "Alice"), ("email", "a@x.com")]).Nodup ∧
    initializedWorld.reqs[0]? = some { ctx := Ctx.background } ∧
    initializedWorld.getErr = none ∧
    ∃ w1 r1 req1,
      SaveSession [("name", "Alice"), ("email", "a@x.com")] initializedWorld 0 =
        Result.ok w1 (some r1, initializedWorld.saveErr) ∧
      w1.reqs[r1]? = some req1 ∧
      (∀ k v, (k, v) ∈ [("name", "Alice"), ("email", "a@x.com")] →
        req1.Context.Value (Any.str k) = Except.ok (Any.str v)) ∧
      (∀ key, (∀ k v, (k, v) ∈ [("name", "Alice"), ("email", "a@x.com")] → key ≠ Any.str k) →
        req1.Context.Value key = (Request.mk Ctx.background).Context.Value key) ∧
      ([("name", "Alice"), ("email", "a@x.com")] ≠ [] →
        initializedWorld.reqs.length ≤ r1 ∧ r1 ≠ 0) ∧
      w1.reqs[0]? = some { ctx := Ctx.background } ∧
      (∀ (i : Nat) (r0 : Request), initializedWorld.reqs[i]? = some r0 →
        w1.reqs[i]? = some r0) :=
  ⟨by decide, rfl, rfl,
    SaveSession_context_frame [("name", "Alice"), ("email", "a@x.com")] (by decide)
      initializedWorld 0 { ctx := Ctx.background }
      { Values := [(stateKey, Any.str "tok"), (authenticatedKey, Any.bool true)] }
      rfl rfl rfl⟩

/-- C6, counterexample: when the fetch fails, `SaveSession` writes the 500 response and
returns a nil request next to the error. -/
theorem SaveSession_failed_fetch_returns_nil_request :
    failedFetchWorld.reqs[0]? = some { ctx := Ctx.background } ∧
    failedFetchWorld.getErr = some "boom" ∧
    SaveSession [("name", "Alice")] failedFetchWorld 0 =
      Result.ok
        { failedFetchWorld with resp := { status := some 500, body := "failed to get session\n" } }
        (none, some "boom") :=
  ⟨rfl, rfl, rfl⟩

/-- C6, amended: `SaveSession` returns normally; the request it returns is non-nil
exactly when the fetch succeeded, also when the save failed; after a failed
fetch it has written the 500 response and returns a nil request with the fetch
error; otherwise it returns the result of the save; so the returned error is
non-nil exactly when the fetch or the save failed. -/
theorem SaveSession_results (info : List (String × String))
    (hnd : (info.map Prod.fst).Nodup) (w : World) (r : Nat) (req : Request)
    (hr : w.reqs[r]? = some req) (hwf : w.getErr = none → ∃ s, w.session = some s) :
    ∃ w1 rq err,
      SaveSession info w r = Result.ok w1 (rq, err) ∧
      (rq ≠ none ↔ w.getErr = none) ∧
      (err ≠ none ↔ (w.getErr ≠ none ∨ w.saveErr ≠ none)) ∧
      (∀ e, w.getErr = some e → rq = none ∧ err = some e ∧
        w1.resp = w.resp.Error "failed to get session" StatusInternalServerError) ∧
      (w.getErr = none → err = w.saveErr ∧ w1.resp = w.resp ∧
        ∃ r1 req1, rq = some r1 ∧ w1.reqs[r1]? = some req1) := by
  cases hg : w.getErr with
  | some e =>
    refine ⟨{ w with resp := w.resp.Error "failed to get session" StatusInternalServerError },
      none, some e, ?_, ?_, ?_, ?_, ?_⟩
    · simp only [SaveSession, hr, hg]
    · simp
    · simp
    · intro e2 h
      injection h with h
      subst h
      exact ⟨rfl, rfl, rfl⟩
    · intro h; cases h
  | none =>
    obtain ⟨s, hs⟩ := hwf hg
    obtain ⟨w1, r1, req1, s1, hrun, hreq1, -, -, -, -, hresp, -⟩ :=
      SaveSession_ok info hnd w r req s hr hs hg
    refine ⟨w1, some r1, w.saveErr, hrun, by simp, by simp, fun e h => absurd h (by simp),
      fun _ => ⟨rfl, hresp, r1, req1, rfl, hreq1⟩⟩

theorem SaveSession_results_witness :
    (List.map Prod.fst [("name", "Alice")]).Nodup ∧
    namedWorld.reqs[0]? = some { ctx := Ctx.background } ∧
    (namedWorld.getErr = none → ∃ s, namedWorld.session = some s) ∧
    ∃ w1 rq err,
      SaveSession [("name", "Alice")] namedWorld 0 = Result.ok w1 (rq, err) ∧
      (rq ≠ none ↔ namedWorld.getErr = none) ∧
      (err ≠ none ↔ (namedWorld.getErr ≠ none ∨ namedWorld.saveErr ≠ none)) ∧
      (∀ e, namedWorld.getErr = some e → rq = none ∧ err = some e ∧
        w1.resp = namedWorld.resp.Error "failed to get session" StatusInternalServerError) ∧
      (namedWorld.getErr = none → err = namedWorld.saveErr ∧ w1.resp = namedWorld.resp ∧
        ∃ r1 req1, rq = some r1 ∧ w1.reqs[r1]? = some req1) :=
  ⟨by decide, rfl, fun _ => ⟨_, rfl⟩,
    SaveSession_results [("name", "Alice")] (by decide) namedWorld 0 { ctx := Ctx.background }
      rfl (fun _ => ⟨_, rfl⟩)⟩

/-- C10: the handler never makes a session authenticated. In the world its run
reaches, the stored `authenticated` is the boolean true only if it was so
before, a missing or non-boolean value has become false, and every value map
it saved is that of the session; `SaveSession`, called with an `info` without
the key `authenticated` on a request whose fetch succeeds, is what stores
true. -/
theorem WithSession_never_authenticates (w : World) (r : Nat) (req : Request) (s : Sess)
    (hr : w.reqs[r]? = some req) (hs : w.session = some s) :
    ∃ w1 msg s1,
      (∀ next : Handler, WithSession next w r = Result.panic w1 msg) ∧
      w1.session = some s1 ∧
      (s1.Values.get authenticatedKey = Any.bool true →
        s.Values.get authenticatedKey = Any.bool true) ∧
      ((s.Values.get authenticatedKey).isBool = false →
        s1.Values.get authenticatedKey = Any.bool false) ∧
      (∀ vals ∈ w1.saved, vals ∈ w.saved ∨ vals = s1.Values) ∧
      (∀ info : List (String × String), (info.map Prod.fst).Nodup →
        (∀ v, ("authenticated", v) ∉ info) → w.getErr = none →
        ∃ w2 out s2, SaveSession info w r = Result.ok w2 out ∧ w2.session = some s2 ∧
          s2.Values.get authenticatedKey = Any.bool true) := by
  obtain ⟨w1, hbody, hsess, -, -, -, -, hsaved⟩ := withSessionBody_panics w r req s hr hs
  have hauth := initSession_get_authenticated s
  refine ⟨w1, _, initSession s, fun next => WithSession_eq_panic _ _ _ _ hbody next, hsess,
    ?_, ?_, ?_, ?_⟩
  · intro h
    by_cases hb : (s.Values.get authenticatedKey).isBool = false
    · rw [hauth, if_pos hb] at h
      cases h
    · rw [hauth, if_neg hb] at h
      exact h
  · intro hb
    rw [hauth, if_pos hb]
  · intro vals hv
    rw [hsaved] at hv
    cases hsv : w.saveErr with
    | none =>
      simp only [hsv, List.mem_append, List.mem_singleton] at hv
      exact hv
    | some e =>
      simp only [hsv] at hv
      exact Or.inl hv
  · intro info hnd habs hget
    obtain ⟨w2, r2, req2, s2, hrun, -, -, -, -, hsess2, -, -, -, -, hout⟩ :=
      SaveSession_ok info hnd w r req s hr hs hget
    refine ⟨w2, _, s2, hrun, hsess2, ?_⟩
    have h := (hout authenticatedKey (fun k v hkv e => by
      injection e with e
      subst e
      exact habs v hkv)).1
    rw [h, Values.get_set_same]

theorem WithSession_never_authenticates_witness :
    namedWorld.reqs[0]? = some { ctx := Ctx.background } ∧
    namedWorld.session =
      some { Values := [(nameKey, Any.str "Alice"), (stateKey, Any.other 7)] } ∧
    ∃ w1 msg s1,
      (∀ next : Handler, WithSession next namedWorld 0 = Result.panic w1 msg) ∧
      w1.session = some s1 ∧
      (s1.Values.get authenticatedKey = Any.bool true →
        Values.get [(nameKey, Any.str "Alice"), (stateKey, Any.other 7)] authenticatedKey =
          Any.bool true) ∧
      ((Values.get [(nameKey, Any.str "Alice"), (stateKey, Any.other 7)]
          authenticatedKey).isBool = false →
        s1.Values.get authenticatedKey = Any.bool false) ∧
      (∀ vals ∈ w1.saved, vals ∈ namedWorld.saved ∨ vals = s1.Values) ∧
      (∀ info : List (String × String), (info.map Prod.fst).Nodup →
        (∀ v, ("authenticated", v) ∉ info) → namedWorld.getErr = none →
        ∃ w2 out s2, SaveSession info namedWorld 0 = Result.ok w2 out ∧
          w2.session = some s2 ∧ s2.Values.get authenticatedKey = Any.bool true) :=
  ⟨rfl, rfl, WithSession_never_authenticates namedWorld 0 { ctx := Ctx.background }
    { Values := [(nameKey, Any.str "Alice"), (stateKey, Any.other 7)] } rfl rfl⟩

/-! ## The claims on `UserInfoHandler` -/

theorem escapeOne_no_angle (c : Char) :
    '<' ∉ (escapeOne c).data ∧ '>' ∉ (escapeOne c).data := by
  unfold escapeOne
  split_ifs with h1 h2 h3 h4 h5 h6
  · decide
  · decide
  · decide
  · decide
  · decide
  · decide
  · constructor
    · intro hmem
      have hd : (String.singleton c).data = [c] := rfl
      rw [hd, List.mem_singleton] at hmem
      exact h3 hmem.symm
    · intro hmem
      have hd : (String.singleton c).data = [c] := rfl
      rw [hd, List.mem_singleton] at hmem
      exact h4 hmem.symm

theorem escapeList_no_angle (cs : List Char) :
    '<' ∉ escapeList cs ∧ '>' ∉ escapeList cs := by
  induction cs with
  | nil => simp [escapeList]
  | cons c rest ih =>
    have h := escapeOne_no_angle c
    simp only [escapeList, List.mem_append, not_or]
    exact ⟨⟨h.1, ih.1⟩, ⟨h.2, ih.2⟩⟩

theorem greeting_data (name : String) :
    ("Hello " ++ EscapeString name ++ "!").data =
      "Hello ".data ++ (escapeList name.data ++ "!".data) := by
  simp [EscapeString, String.data_append]

/-- C7: when the context of the request holds the string `name` under the key `name`,
the handler writes exactly `Hello `, the escaped name and `!`; what it writes
has no `<` and no `>` at all; for the name `<script>` it contains
`&lt;script&gt;` and does not contain `<script>`. -/
theorem UserInfoHandler_writes_escaped_greeting (w : World) (r : Nat) (req : Request)
    (name : String) (hr : w.reqs[r]? = some req)
    (hname : req.Context.Value nameKey = Except.ok (Any.str name)) :
    ∃ w1 out,
      UserInfoHandler w r = Result.ok w1 () ∧
      out = "Hello " ++ EscapeString name ++ "!" ∧
      w1.resp.body = w.resp.body ++ out ∧
      w1 = { w with resp := w.resp.Write out } ∧
      '<' ∉ out.data ∧ '>' ∉ out.data ∧
      (name = "<script>" →
        "&lt;script&gt;".data <:+: out.data ∧ ¬ ("<script>".data <:+: out.data)) := by
  have hno : '<' ∉ ("Hello " ++ EscapeString name ++ "!").data ∧
      '>' ∉ ("Hello " ++ EscapeString name ++ "!").data := by
    rw [greeting_data]
    have h := escapeList_no_angle name.data
    simp only [List.mem_append, not_or]
    exact ⟨⟨by decide, h.1, by decide⟩, ⟨by decide, h.2, by decide⟩⟩
  refine ⟨_, _, ?_, rfl, ?_, rfl, hno.1, hno.2, ?_⟩
  · simp only [UserInfoHandler, hr, hname]
  · rfl
  · intro hn
    subst hn
    refine ⟨⟨"Hello ".data, "!".data, by decide⟩, ?_⟩
    intro hin0
    exact hno.1 (hin0.subset (by decide))

theorem UserInfoHandler_writes_escaped_greeting_witness :
    scriptWorld.reqs[0]? =
      some { ctx := Ctx.value Ctx.background nameKey (Any.str "<script>") } ∧
    (Request.mk (Ctx.value Ctx.background nameKey (Any.str "<script>"))).Context.Value nameKey =
      Except.ok (Any.str "<script>") ∧
    ∃ w1 out,
      UserInfoHandler scriptWorld 0 = Result.ok w1 () ∧
      out = "Hello " ++ EscapeString "<script>" ++ "!" ∧
      w1.resp.body = scriptWorld.resp.body ++ out ∧
      w1 = { scriptWorld with resp := scriptWorld.resp.Write out } ∧
      '<' ∉ out.data ∧ '>' ∉ out.data ∧
      ("<script>" = "<script>" →
        "&lt;script&gt;".data <:+: out.data ∧ ¬ ("<script>".data <:+: out.data)) :=
  ⟨rfl, rfl, UserInfoHandler_writes_escaped_greeting scriptWorld 0
    { ctx := Ctx.value Ctx.background nameKey (Any.str "<script>") } "<script>" rfl rfl⟩

/-- C8, evaluated on the code: the type assertion of line 116 panics when the
context has no string under `name`: on a request whose context lacks the key,
and on one that holds a boolean there; in each case nothing is written. -/
theorem UserInfoHandler_panics_without_string_name :
    UserInfoHandler freshWorld 0 =
      Result.panic freshWorld "interface conversion: interface \x7b\x7d is nil, not string" ∧
    UserInfoHandler wrongTypeWorld 0 =
      Result.panic wrongTypeWorld
        "interface conversion: interface \x7b\x7d is bool, not string" :=
  ⟨rfl, rfl⟩

end Session
